import Mathlib

/-!
# Verification of the crash-game backend core

Shallow embedding, in Lean 4, of the core of the `Ka_ndeke_backend`
repository: the provably-fair round engine (`gameEngine.js`), the seed
commitment chain and round persistence (`server.js`), the bet/cashout
ledger routes, the payment reconciler (`zils.js`, `admin.js`), and the
cashout rate limiter.

Conventions of the embedding:

* JavaScript numbers that hold money or multipliers are modelled as exact
  integers in cents (two implied decimal places); balances use `Int` so a
  debit below zero is representable, exactly as a SQL `decimal` column is.
* JavaScript integer arithmetic on hash prefixes (`parseInt(hex, 16)`,
  `Math.floor` of a quotient) is modelled with exact `Nat` arithmetic.
* The node `crypto` primitives used by the repository
  (`createHash('sha256')`, `createHmac('sha256', ...)`) are embedded as a
  complete executable SHA-256 / HMAC-SHA256 over byte lists, so concrete
  hashes compute inside Lean.
* `crypto.randomBytes(32).toString('hex')` is modelled by consuming the
  head of an explicit supply of strings threaded through the state.
* SQL statements act on in-memory lists of rows; a transaction is a pure
  function from state to state (plus a result), so "all or nothing" holds
  by construction.
-/

set_option maxRecDepth 100000

/-! ## Embedding of the node `crypto` primitives: SHA-256 and HMAC-SHA256 -/

/-- Reduce modulo 2^32 (JavaScript / SHA-256 word arithmetic). -/
def mod32 (x : Nat) : Nat := x % 4294967296

/-- Rotate a 32-bit word right by `n`. -/
def rotr32 (n x : Nat) : Nat := mod32 ((x >>> n) ||| (x <<< (32 - n)))

def shaCh (x y z : Nat) : Nat := (x &&& y) ^^^ ((x ^^^ 4294967295) &&& z)

def shaMaj (x y z : Nat) : Nat := (x &&& y) ^^^ (x &&& z) ^^^ (y &&& z)

def bsig0 (x : Nat) : Nat := rotr32 2 x ^^^ rotr32 13 x ^^^ rotr32 22 x

def bsig1 (x : Nat) : Nat := rotr32 6 x ^^^ rotr32 11 x ^^^ rotr32 25 x

def ssig0 (x : Nat) : Nat := rotr32 7 x ^^^ rotr32 18 x ^^^ (x >>> 3)

def ssig1 (x : Nat) : Nat := rotr32 17 x ^^^ rotr32 19 x ^^^ (x >>> 10)

/-- The eight working variables of the SHA-256 compression function. -/
structure Hstate where
  a : Nat
  b : Nat
  c : Nat
  d : Nat
  e : Nat
  f : Nat
  g : Nat
  h : Nat
deriving Repr, DecidableEq

def shaInit : Hstate :=
  ⟨1779033703, 3144134277, 1013904242, 2773480762,
   1359893119, 2600822924, 528734635, 1541459225⟩

def shaK : List Nat :=
  [1116352408, 1899447441, 3049323471, 3921009573, 961987163, 1508970993,
   2453635748, 2870763221, 3624381080, 310598401, 607225278, 1426881987,
   1925078388, 2162078206, 2614888103, 3248222580, 3835390401, 4022224774,
   264347078, 604807628, 770255983, 1249150122, 1555081692, 1996064986,
   2554220882, 2821834349, 2952996808, 3210313671, 3336571891, 3584528711,
   113926993, 338241895, 666307205, 773529912, 1294757372, 1396182291,
   1695183700, 1986661051, 2177026350, 2456956037, 2730485921, 2820302411,
   3259730800, 3345764771, 3516065817, 3600352804, 4094571909, 275423344,
   430227734, 506948616, 659060556, 883997877, 958139571, 1322822218,
   1537002063, 1747873779, 1955562222, 2024104815, 2227730452, 2361852424,
   2428436474, 2756734187, 3204031479, 3329325298]

/-- One SHA-256 round: the first component of the pair is the round
constant, the second the scheduled message word. -/
def shaRound (s : Hstate) (kw : Nat × Nat) : Hstate :=
  let t1 := mod32 (s.h + bsig1 s.e + shaCh s.e s.f s.g + kw.1 + kw.2)
  let t2 := mod32 (bsig0 s.a + shaMaj s.a s.b s.c)
  ⟨mod32 (t1 + t2), s.a, s.b, s.c, mod32 (s.d + t1), s.e, s.f, s.g⟩

/-- Combine four big-endian bytes into 32-bit words. -/
def bytesToWords : List Nat → List Nat
  | b0 :: b1 :: b2 :: b3 :: rest =>
      (((b0 * 256 + b1) * 256 + b2) * 256 + b3) :: bytesToWords rest
  | _ => []

/-- Extend the 16 block words to the 64-entry message schedule. -/
def extendSchedule : Nat → List Nat → List Nat
  | 0, w => w
  | n + 1, w =>
      let t := w.length
      let x := mod32 (ssig1 (w.getD (t - 2) 0) + w.getD (t - 7) 0 +
                      ssig0 (w.getD (t - 15) 0) + w.getD (t - 16) 0)
      extendSchedule n (w ++ [x])

/-- Compress one 64-byte block into the running hash state. -/
def shaCompress (st : Hstate) (block : List Nat) : Hstate :=
  let w := extendSchedule 48 (bytesToWords block)
  let s := (shaK.zip w).foldl shaRound st
  ⟨mod32 (st.a + s.a), mod32 (st.b + s.b), mod32 (st.c + s.c),
   mod32 (st.d + s.d), mod32 (st.e + s.e), mod32 (st.f + s.f),
   mod32 (st.g + s.g), mod32 (st.h + s.h)⟩

/-- `n` big-endian bytes of `v`. -/
def beBytes : Nat → Nat → List Nat
  | 0, _ => []
  | n + 1, v => beBytes n (v / 256) ++ [v % 256]

/-- Merkle–Damgård padding of SHA-256: `0x80`, zeros to 56 mod 64, then the
bit length on eight big-endian bytes. -/
def shaPad (msg : List Nat) : List Nat :=
  let len := msg.length
  let zeros := (55 + 64 - len % 64) % 64
  msg ++ [0x80] ++ List.replicate zeros 0 ++ beBytes 8 (8 * len)

/-- Fold the compression function over all 64-byte blocks. -/
def shaBlocks (st : Hstate) (padded : List Nat) : Hstate :=
  (List.range (padded.length / 64)).foldl
    (fun acc i => shaCompress acc ((padded.drop (64 * i)).take 64)) st

def hstateBytes (s : Hstate) : List Nat :=
  beBytes 4 s.a ++ beBytes 4 s.b ++ beBytes 4 s.c ++ beBytes 4 s.d ++
  beBytes 4 s.e ++ beBytes 4 s.f ++ beBytes 4 s.g ++ beBytes 4 s.h

/-- SHA-256 of a byte list (bytes in, 32 bytes out). -/
def sha256Bytes (msg : List Nat) : List Nat :=
  hstateBytes (shaBlocks shaInit (shaPad msg))

/-- HMAC-SHA256 on byte lists (RFC 2104 with a 64-byte block). -/
def hmacSha256Bytes (key msg : List Nat) : List Nat :=
  let k0 := if 64 < key.length then sha256Bytes key else key
  let kp := k0 ++ List.replicate (64 - k0.length) 0
  sha256Bytes ((kp.map (fun x => x ^^^ 0x5c)) ++
    sha256Bytes ((kp.map (fun x => x ^^^ 0x36)) ++ msg))

def hexDigitChars : List Char := "0123456789abcdef".toList

def byteToHex (x : Nat) : List Char :=
  [hexDigitChars.getD (x / 16 % 16) 'x', hexDigitChars.getD (x % 16) 'x']

/-- Lowercase hex encoding of a byte list, as node's `digest('hex')`. -/
def bytesToHex (l : List Nat) : String := ⟨(l.map byteToHex).flatten⟩

/-- The code points of a string; for the ASCII strings handled by the
repository this is its UTF-8 encoding, which is what node hashes. -/
def strBytes (s : String) : List Nat := s.toList.map Char.toNat

/-- `gameEngine.js` / `server.js` helper `sha256hex`:
`crypto.createHash('sha256').update(s).digest('hex')`. -/
def sha256hex (s : String) : String := bytesToHex (sha256Bytes (strBytes s))

/-- `gameEngine.js` helper `hmacSha256Hex` (and `server.js` `hmacHex`):
`crypto.createHmac('sha256', key).update(message).digest('hex')`. -/
def hmacSha256Hex (key msg : String) : String :=
  bytesToHex (hmacSha256Bytes (strBytes key) (strBytes msg))

/-! ## `gameEngine.js`: deterministic crash-point computation

Multipliers and crash points carry exactly two decimals in the source
(`toFixed(2)` everywhere), so they are embedded in cents: the `Nat` `198`
is the multiplier `1.98`. -/

/-- Value of one hex digit as `parseInt(..., 16)` reads it; characters
outside `[0-9a-fA-F]` contribute 0 (the engine only parses the lowercase
hex output of `hmacSha256Hex`, on which this agrees with `parseInt`). -/
def hexCharVal (c : Char) : Nat :=
  match c with
  | '0' => 0 | '1' => 1 | '2' => 2 | '3' => 3 | '4' => 4
  | '5' => 5 | '6' => 6 | '7' => 7 | '8' => 8 | '9' => 9
  | 'a' => 10 | 'b' => 11 | 'c' => 12 | 'd' => 13 | 'e' => 14 | 'f' => 15
  | 'A' => 10 | 'B' => 11 | 'C' => 12 | 'D' => 13 | 'E' => 14 | 'F' => 15
  | _ => 0

/-- `parseInt(hashHex.slice(0, 13), 16)`: the first 13 hex characters read
as a 52-bit unsigned integer. -/
def parseHex13 (s : String) : Nat :=
  (s.toList.take 13).foldl (fun a c => a * 16 + hexCharVal c) 0

/-- `Math.pow(2, 52)`, the `e` of `hashToCrashPoint`. -/
def twoPow52 : Nat := 4503599627370496

/-- `gameEngine.js` `hashToCrashPoint`, in cents. Source:
`h = parseInt(hashHex.slice(0,13), 16); e = 2^52;`
`if (e - h <= 0) return 1.0;`
`return Math.max(1.0, Math.floor((100*e - h) / (e - h)) / 100)`.
Exact integer arithmetic stands in for the double-precision floats of the
source; `Math.floor` of the quotient is `Nat` division, and the final
`/ 100` together with `toFixed(2)` is the cents representation itself. -/
def hashToCrashPoint (hashHex : String) : Nat :=
  let h := parseHex13 hashHex
  if twoPow52 ≤ h then 100
  else max 100 ((100 * twoPow52 - h) / (twoPow52 - h))

structure CrashComputation where
  crashPoint : Nat
  hashHex : String
deriving Repr, DecidableEq

/-- `gameEngine.js` `computeCrashPointFromSeed`: HMAC with the server seed
as key and the client seed (always `''` in the engine) as message. -/
def computeCrashPointFromSeed (serverSeed clientSeed : String) : CrashComputation :=
  let hashHex := hmacSha256Hex serverSeed clientSeed
  ⟨hashToCrashPoint hashHex, hashHex⟩

/-- `gameEngine.js` `computeMultiplier`, in cents: the source computes
`Number((1 + (elapsedMs/1000) * 1).toFixed(2))`, i.e. one cent per 10 ms
of elapsed time, rounded half-up to the cent by `toFixed(2)`. -/
def computeMultiplier (now startedAt : Nat) : Nat :=
  100 + (now - startedAt + 5) / 10

/-! ## `gameEngine.js`: the round engine state machine -/

inductive RoundStatus where
  | running
  | crashed
deriving Repr, DecidableEq

structure PlayerEntry where
  betAmount : Nat
  cashedOut : Bool
  payout : Option Nat
  cashedAt : Option Nat
  cashedMultiplier : Option Nat
deriving Repr, DecidableEq

/-- The in-memory `currentRound` object of `gameEngine.js`. Timers are
modelled by whether they are armed. -/
structure EngineRound where
  roundId : Nat
  crashPoint : Nat
  serverSeed : String
  serverSeedHash : String
  commitIdx : Option Nat
  status : RoundStatus
  startedAt : Nat
  endedAt : Option Nat
  locked : Bool
  players : List (Nat × PlayerEntry)
  timer : Bool
  nextRoundTimer : Bool
deriving Repr, DecidableEq

/-- A `{ seed, seedHash, commitIdx }` triple as passed to `setNextSeed`. -/
structure SeedObj where
  seed : String
  seedHash : String
  commitIdx : Nat
deriving Repr, DecidableEq

/-- The module-level mutable state of `gameEngine.js`. -/
structure EngineState where
  currentRound : Option EngineRound
  pendingSeedObj : Option SeedObj
deriving Repr, DecidableEq

/-- `gameEngine.js` `setNextSeed`: rejects an obviously invalid object
(falsy `seed` or `seedHash`), otherwise stores the pending seed. -/
def setNextSeed (obj : SeedObj) (st : EngineState) : EngineState :=
  if obj.seed = "" ∨ obj.seedHash = "" then { st with pendingSeedObj := none }
  else { st with pendingSeedObj := some obj }

/-- `gameEngine.js` `markRoundCrashed`: idempotent; on the first call sets
`status = 'crashed'`, stamps `endedAt`, clears the crash timer and arms the
next-round timer. -/
def markRoundCrashed (now : Nat) (r : EngineRound) : EngineRound :=
  if r.status = .crashed then r
  else { r with status := .crashed, locked := true, endedAt := some now,
                timer := false, nextRoundTimer := true }

/-- The public view returned by `getRoundStatus`. -/
inductive StatusView where
  | waiting
  | round (roundId : Nat) (status : RoundStatus) (multiplier : Nat)
      (startedAt : Nat) (endedAt : Option Nat)
      (serverSeedHash : String) (commitIdx : Option Nat)
deriving Repr, DecidableEq

/-- `gameEngine.js` `getRoundStatus`. On a running round it recomputes the
multiplier and, when the multiplier has reached the crash point, it calls
`markRoundCrashed` — so reading the status can mutate the round. -/
def getRoundStatus (now : Nat) (st : EngineState) : StatusView × EngineState :=
  match st.currentRound with
  | none => (.waiting, st)
  | some r =>
    if r.status = .running then
      let m := computeMultiplier now r.startedAt
      if r.crashPoint ≤ m then
        let r2 := markRoundCrashed now r
        (.round r2.roundId r2.status r2.crashPoint r2.startedAt r2.endedAt
           r2.serverSeedHash r2.commitIdx,
         { st with currentRound := some r2 })
      else
        (.round r.roundId r.status m r.startedAt r.endedAt
           r.serverSeedHash r.commitIdx, st)
    else
      (.round r.roundId r.status r.crashPoint r.startedAt r.endedAt
         r.serverSeedHash r.commitIdx, st)

/-- The per-tick effect of `server.js` `startBroadcastLoop` on the engine:
each tick calls `gameEngine.getRoundStatus()` and publishes the view over
the socket (a no-op on engine state). -/
def broadcastTick (now : Nat) (st : EngineState) : EngineState :=
  (getRoundStatus now st).2

/-- Result object of the engine's `cashOut`. -/
structure EngineCashRes where
  win : Bool
  payout : Nat
  multiplier : Nat
deriving Repr, DecidableEq

def setPlayer (pid : Nat) (p : PlayerEntry)
    (ps : List (Nat × PlayerEntry)) : List (Nat × PlayerEntry) :=
  ps.map (fun q => if q.1 = pid then (pid, p) else q)

/-- `gameEngine.js` `cashOut(playerId)`: throws without a round, an absent
player, or a player who already cashed out; past the crash point (or off a
running status) it marks the round crashed and reports a loss; otherwise
it snapshots the multiplier and pays `round2(betAmount mult)`. -/
def engineCashOut (now pid : Nat) (st : EngineState) :
    Except String (EngineCashRes × EngineState) :=
  match st.currentRound with
  | none => .error "No active round"
  | some r =>
    match (r.players.find? (fun q => q.1 = pid)).map Prod.snd with
    | none => .error "Player not in round"
    | some player =>
      if player.cashedOut then .error "Already cashed out"
      else
        let m := computeMultiplier now r.startedAt
        if r.crashPoint ≤ m ∨ r.status ≠ .running then
          let r2 := if r.status ≠ .crashed then markRoundCrashed now r else r
          (.ok (⟨false, 0, r.crashPoint⟩,
                { st with currentRound := some r2 }))
        else
          let pay := (player.betAmount * m + 50) / 100
          let p2 : PlayerEntry :=
            { player with cashedOut := true, payout := some pay,
                          cashedAt := some now, cashedMultiplier := some m }
          let r2 : EngineRound := { r with players := setPlayer pid p2 r.players }
          (.ok (⟨true, pay, m⟩, { st with currentRound := some r2 }))

/-! ## `server.js`: seed commitment chain, round persistence, lifecycle

The database tables touched by the provably-fair path (`seed_commits`,
`rounds`) are in-memory lists of rows; `crypto.randomBytes(32).toString('hex')`
consumes the head of an explicit `randoms` supply; `crypto.randomUUID()`
for round ids is a threaded counter. `SEED_MASTER` is the optional master
secret (`Option String`). -/

/-- JavaScript `x || null` on a string column value. -/
def jsStrOrNull (s : String) : Option String :=
  if s = "" then none else some s

/-- JavaScript `x || null` on a possibly-absent number (maps both `null`
and `0` to SQL NULL). -/
def jsNatOptOrNull (o : Option Nat) : Option Nat :=
  if o = some 0 then none else o

/-- JavaScript `x || null` on a number. -/
def jsNatOrNull (n : Nat) : Option Nat :=
  if n = 0 then none else some n

/-- One `seed_commits` row: `(idx, seed_hash)`. -/
structure CommitRow where
  idx : Nat
  seedHash : String
deriving Repr, DecidableEq

/-- One `rounds` row (the columns used by the provably-fair path). -/
structure RoundRow where
  roundId : Nat
  serverSeedHash : Option String
  commitIdx : Option Nat
  crashPoint : Option Nat
  startedAt : Nat
  endedAt : Option Nat
  serverSeed : Option String
  serverSeedRevealedAt : Bool
  settlementClosedAt : Option Nat
deriving Repr, DecidableEq

/-- The whole single-process system: engine state, the two tables, the
randomness supply and the round-id mint. -/
structure SysState where
  engine : EngineState
  commits : List CommitRow
  rounds : List RoundRow
  randoms : List String
  nextRoundId : Nat
deriving Repr, DecidableEq

/-- `crypto.randomBytes(32).toString('hex')`: consume the supply. -/
def drawRandom (st : SysState) : String × SysState :=
  match st.randoms with
  | [] => ("", st)
  | r :: rest => (r, { st with randoms := rest })

/-- `server.js` `deriveSeedForIdx(idx)`: with `SEED_MASTER` configured,
`hmacHex(SEED_MASTER, String(idx))` — deterministic; without it, a fresh
random hex string on every call. -/
def deriveSeedForIdx (seedMaster : Option String) (idx : Nat)
    (st : SysState) : String × SysState :=
  match seedMaster with
  | none => drawRandom st
  | some m => (hmacSha256Hex m (toString idx), st)

/-- `SELECT idx, seed_hash FROM seed_commits ORDER BY idx DESC LIMIT 1`. -/
def getLatestCommit (commits : List CommitRow) : Option CommitRow :=
  commits.foldl
    (fun acc c =>
      match acc with
      | none => some c
      | some b => if b.idx < c.idx then some c else some b)
    none

/-- `SELECT MAX(idx) FROM seed_commits`, with NULL read as 0. -/
def maxCommitIdx (commits : List CommitRow) : Nat :=
  commits.foldl (fun m c => max m c.idx) 0

/-- `server.js` `ensureNextCommitExists`: compute `max(idx)+1`; if a row
with that idx exists return it, else derive a seed for it, persist
`(idx, sha256hex(seed))` and return the new row. -/
def ensureNextCommitExists (seedMaster : Option String) (st : SysState) :
    CommitRow × SysState :=
  let nextIdx := maxCommitIdx st.commits + 1
  match st.commits.find? (fun c => c.idx = nextIdx) with
  | some c => (c, st)
  | none =>
    let (seed, st2) := deriveSeedForIdx seedMaster nextIdx st
    let row : CommitRow := ⟨nextIdx, sha256hex seed⟩
    (row, { st2 with commits := st2.commits ++ [row] })

/-- The rounds row `persistRoundStart` INSERTs, with `serverSeedHash ||
null`, `commitIdx || null` and `crashPoint || null`. -/
def persistedStartRow (r : EngineRound) : RoundRow :=
  { roundId := r.roundId,
    serverSeedHash := jsStrOrNull r.serverSeedHash,
    commitIdx := jsNatOptOrNull r.commitIdx,
    crashPoint := jsNatOrNull r.crashPoint,
    startedAt := r.startedAt,
    endedAt := none,
    serverSeed := none,
    serverSeedRevealedAt := false,
    settlementClosedAt := none }

/-- `server.js` `persistRoundStart`: `INSERT INTO rounds ... ON CONFLICT
(round_id) DO NOTHING`. -/
def persistRoundStart (r : EngineRound) (rounds : List RoundRow) :
    List RoundRow :=
  if rounds.any (fun row => row.roundId = r.roundId) then rounds
  else rounds ++ [persistedStartRow r]

/-- `server.js` `persistRoundCrash`: `UPDATE rounds SET crash_point = $1,
ended_at = $2, meta = meta || $3, server_seed = $4,
server_seed_revealed_at = NOW() WHERE round_id = $5`. No other column is
written. -/
def persistRoundCrash (r : EngineRound) (rounds : List RoundRow) :
    List RoundRow :=
  rounds.map (fun row =>
    if row.roundId = r.roundId then
      { row with crashPoint := jsNatOrNull r.crashPoint,
                 endedAt := some (r.endedAt.getD 0),
                 serverSeed := jsStrOrNull r.serverSeed,
                 serverSeedRevealedAt := true }
    else row)

/-- `gameEngine.js` `createNewRound`: consume `pendingSeedObj` if present,
else generate an ephemeral random seed (commitIdx null); compute the crash
point from the seed, stamp `startedAt`, arm the crash timer. -/
def createNewRound (now : Nat) (st : SysState) : EngineRound × SysState :=
  let roundId := st.nextRoundId
  let st1 := { st with nextRoundId := st.nextRoundId + 1 }
  let (seed, seedHash, commitIdx, st2) :=
    match st1.engine.pendingSeedObj with
    | some p =>
      (p.seed, p.seedHash, some p.commitIdx,
       { st1 with engine := { st1.engine with pendingSeedObj := none } })
    | none =>
      let (s, stA) := drawRandom st1
      (s, sha256hex s, none, stA)
  let round : EngineRound :=
    { roundId := roundId,
      crashPoint := (computeCrashPointFromSeed seed "").crashPoint,
      serverSeed := seed,
      serverSeedHash := seedHash,
      commitIdx := commitIdx,
      status := .running,
      startedAt := now,
      endedAt := none,
      locked := false,
      players := [],
      timer := true,
      nextRoundTimer := false }
  (round, { st2 with engine := { st2.engine with currentRound := some round } })

/-- The `roundStarted` listener attached in `server.js`
`attachEngineListeners`: persist the round, then `ensureNextCommitExists`
and `setNextSeed(deriveSeedForIdx(nextCommit.idx), nextCommit.seed_hash,
nextCommit.idx)` for the following round. -/
def roundStartedHandler (seedMaster : Option String) (r : EngineRound)
    (st : SysState) : SysState :=
  let st1 := { st with rounds := persistRoundStart r st.rounds }
  let (next, st2) := ensureNextCommitExists seedMaster st1
  let (nextSeed, st3) := deriveSeedForIdx seedMaster next.idx st2
  { st3 with engine := setNextSeed ⟨nextSeed, next.seedHash, next.idx⟩ st3.engine }

/-- The `roundCrashed` listener: `persistRoundCrash` (the broadcast emit
has no state effect). -/
def roundCrashedHandler (r : EngineRound) (st : SysState) : SysState :=
  { st with rounds := persistRoundCrash r st.rounds }

/-- Round start as the running system performs it: `createNewRound`
followed by the `roundStarted` listener. -/
def sysStartRound (seedMaster : Option String) (now : Nat)
    (st : SysState) : SysState :=
  let (r, st1) := createNewRound now st
  roundStartedHandler seedMaster r st1

/-- Round crash as the running system performs it: `markRoundCrashed` on
the current round (a no-op if it is already crashed, in which case no
event fires) followed by the `roundCrashed` listener. -/
def sysCrashRound (now : Nat) (st : SysState) : SysState :=
  match st.engine.currentRound with
  | none => st
  | some r =>
    if r.status = .crashed then st
    else
      let r2 := markRoundCrashed now r
      roundCrashedHandler r2
        { st with engine := { st.engine with currentRound := some r2 } }

/-- `server.js` `start()` up to `startEngine()`: `ensureNextCommitExists`,
then look up the latest commit, derive its seed and `setNextSeed`. -/
def serverBoot (seedMaster : Option String) (st : SysState) : SysState :=
  let (_, st1) := ensureNextCommitExists seedMaster st
  match getLatestCommit st1.commits with
  | some latest =>
    let (seed, st2) := deriveSeedForIdx seedMaster latest.idx st1
    { st2 with engine := setNextSeed ⟨seed, latest.seedHash, latest.idx⟩ st2.engine }
  | none => st1

/-- One full round: start (with listener) at `t.1`, crash (with listener)
at `t.2`. -/
def runOneRound (seedMaster : Option String) (t : Nat × Nat)
    (st : SysState) : SysState :=
  sysCrashRound t.2 (sysStartRound seedMaster t.1 st)

/-- A boot followed by a sequence of full rounds at the given times. -/
def runRounds (seedMaster : Option String) :
    List (Nat × Nat) → SysState → SysState
  | [], st => st
  | t :: rest, st => runRounds seedMaster rest (runOneRound seedMaster t st)

/-- The empty initial system with a given randomness supply. -/
def initSysState (randoms : List String) : SysState :=
  { engine := { currentRound := none, pendingSeedObj := none },
    commits := [], rounds := [], randoms := randoms, nextRoundId := 1 }

/-- A complete run of the server: boot, then `n` rounds. -/
def serverRun (seedMaster : Option String) (randoms : List String)
    (times : List (Nat × Nat)) : SysState :=
  runRounds seedMaster times (serverBoot seedMaster (initSysState randoms))

/-- `hmacHex(SEED_MASTER, String(idx))` — the deterministic seed of commit
`idx` in master mode. -/
def masterSeedFor (m : String) (idx : Nat) : String :=
  hmacSha256Hex m (toString idx)

/-! ## Game routes (the transactional bet/cashout ledger)

`POST /start` and `POST /cashout` run their SQL inside `runTransaction`;
each transaction is a pure function from the relevant rows to new rows
plus a result. The single `(user, round)` under consideration is modelled
directly: one optional bet row, the user's balance, and the round row's
settlement columns. -/

def CASHOUT_MIN_INTERVAL_MS : Nat := 1000
def CASHOUT_PRUNE_AGE_MS : Nat := 600000
def MAX_CASHOUT_ENTRIES : Nat := 20000

/-- JS `Map` methods on an insertion-ordered association list. -/
def mapGetD (m : List (Nat × Nat)) (k d : Nat) : Nat :=
  match m.find? (fun e => e.1 = k) with
  | some e => e.2
  | none => d

def mapSet (m : List (Nat × Nat)) (k v : Nat) : List (Nat × Nat) :=
  if m.any (fun e => e.1 = k) then
    m.map (fun e => if e.1 = k then (k, v) else e)
  else m ++ [(k, v)]

/-- `pruneCashoutMapByAge`: drop entries older than
`CASHOUT_PRUNE_AGE_MS`, then drop oldest-inserted entries while the map
exceeds `MAX_CASHOUT_ENTRIES`. -/
def pruneCashoutMapByAge (now : Nat) (m : List (Nat × Nat)) :
    List (Nat × Nat) :=
  let byAge := m.filter (fun e => ¬ (CASHOUT_PRUNE_AGE_MS < now - e.2))
  byAge.drop (byAge.length - MAX_CASHOUT_ENTRIES)

/-- The `POST /cashout` rate-limit gate (part_002 lines 233-240): read the
user's last-attempt timestamp (0 if absent); a request closer than
`CASHOUT_MIN_INTERVAL_MS` to it is rejected with 429 — and both branches
overwrite the stored timestamp with `Date.now()` and prune. -/
def cashoutRateCheck (now uid : Nat) (m : List (Nat × Nat)) :
    Bool × List (Nat × Nat) :=
  let last := mapGetD m uid 0
  let m2 := pruneCashoutMapByAge now (mapSet m uid now)
  if now - last < CASHOUT_MIN_INTERVAL_MS then (false, m2) else (true, m2)

/-- Decisions (`true` = allowed past the gate) for a sequence of request
instants by one user, threading the timestamp map. -/
def processCashoutRequests (uid : Nat) :
    List Nat → List (Nat × Nat) → List Bool
  | [], _ => []
  | t :: rest, m =>
    let (ok, m2) := cashoutRateCheck t uid m
    ok :: processCashoutRequests uid rest m2

/-- `bets.status` values. -/
inductive BetStatus where
  | active
  | cashed
  | lost
  | refunded
deriving Repr, DecidableEq

/-- The single `(user, round)` bet row used by the cashout transaction. -/
structure BetRow where
  betAmount : Nat
  status : BetStatus
  payout : Option Nat
  claimedAt : Option Nat
deriving Repr, DecidableEq

/-- The rows the cashout transaction touches: the round's settlement
columns, the user's bet row for this round, and the user's balance. -/
structure CashoutDb where
  roundEndedAt : Option Nat
  settlementClosedAt : Option Nat
  bet : Option BetRow
  balance : Int
deriving Repr, DecidableEq

inductive CashoutErr where
  | settlementClosed
  | noBet
  | engineFailure
deriving Repr, DecidableEq

/-- The JSON result of the cashout transaction. -/
structure CashoutResult where
  success : Bool
  payout : Nat
  multiplier : Option Nat
  balance : Option Int
  idempotent : Bool
deriving Repr, DecidableEq

/-- The `POST /cashout` transaction body (part_002 lines 248-347): check
the settlement window, lock the bet row; if `status='cashed'` return the
original payout with `idempotent=true` and no mutation; if otherwise not
active return a no-payout idempotent reply; else consult the engine and
either mark the bet lost or credit the payout and mark it cashed. -/
def cashoutTx (now uid : Nat) (db : CashoutDb) (eng : EngineState) :
    Except CashoutErr (CashoutResult × CashoutDb × EngineState) :=
  let closedNow : Bool := match db.settlementClosedAt with
    | some closed => decide (closed < now)
    | none => false
  if closedNow then .error .settlementClosed
  else
    match db.bet with
    | none => .error .noBet
    | some bet =>
      if bet.status = .cashed then
        .ok (⟨true, bet.payout.getD 0, none, some db.balance, true⟩, db, eng)
      else if bet.status ≠ .active then
        .ok (⟨false, 0, none, none, true⟩, db, eng)
      else
        match engineCashOut now uid eng with
        | .error _ => .error .engineFailure
        | .ok (res, eng2) =>
          if res.win = false then
            let lostBet : BetRow := { bet with status := .lost, payout := some 0 }
            let db2 : CashoutDb := { db with bet := some lostBet }
            .ok (⟨false, 0, some res.multiplier, none, false⟩, db2, eng2)
          else
            let cashedBet : BetRow :=
              { bet with status := .cashed, payout := some res.payout,
                         claimedAt := some now }
            let db2 : CashoutDb :=
              { db with balance := db.balance + (res.payout : Int),
                        bet := some cashedBet }
            .ok (⟨true, res.payout, some res.multiplier, some db2.balance, false⟩, db2, eng2)

/-! ## Single-user balance interleaving model

The debits and credits that touch `users.balance`, at the granularity at
which the source serializes them. The `POST /start` debit is one guarded
SQL statement; the `POST /withdraw` path is two separately-committed
steps: a balance check (zils.js line 893, outside any transaction) and an
unconditional debit (line 951, in a later transaction) — so another
statement can run between them. -/

inductive LedgerEvent where
  /-- `UPDATE users SET balance = balance - $1 WHERE id = $2 AND
  balance >= $1` (part_002 line 132). -/
  | betDebit (amount : Int)
  /-- Unconditional credit: cashout payout, refund, or deposit confirm. -/
  | credit (amount : Int)
  /-- The `POST /withdraw` pre-transaction balance check (zils.js 893):
  the request proceeds only when the balance covers the amount. -/
  | withdrawCheck (amount : Int)
  /-- The unconditional `balance = balance - $1` of the withdraw
  transaction (zils.js 951), for the earliest checked-but-unpaid
  withdrawal. -/
  | withdrawDebit
deriving Repr, DecidableEq

structure LedgerState where
  balance : Int
  pendingWithdrawals : List Int
deriving Repr, DecidableEq

def ledgerStep (st : LedgerState) : LedgerEvent → LedgerState
  | .betDebit a =>
    if a ≤ st.balance then { st with balance := st.balance - a } else st
  | .credit a => { st with balance := st.balance + a }
  | .withdrawCheck a =>
    if st.balance < a then st
    else { st with pendingWithdrawals := st.pendingWithdrawals ++ [a] }
  | .withdrawDebit =>
    match st.pendingWithdrawals with
    | [] => st
    | a :: rest => { balance := st.balance - a, pendingWithdrawals := rest }

def ledgerRun (st : LedgerState) (evs : List LedgerEvent) : LedgerState :=
  evs.foldl ledgerStep st

/-- Account operations at request granularity; `compileOps` expands a
withdrawal into its check and debit steps, adjacent (no interleaving). -/
inductive AccountOp where
  | bet (amount : Int)
  | credit (amount : Int)
  | withdraw (amount : Int)
deriving Repr, DecidableEq

def opAmount : AccountOp → Int
  | .bet a => a
  | .credit a => a
  | .withdraw a => a

def compileOps : List AccountOp → List LedgerEvent
  | [] => []
  | .bet a :: r => .betDebit a :: compileOps r
  | .credit a :: r => .credit a :: compileOps r
  | .withdraw a :: r => .withdrawCheck a :: .withdrawDebit :: compileOps r

/-! ## `zils.js` / `admin.js`: payment intents and the polling reconciler

One payment intent and its user's balance. A polling run is driven by the
list of gateway answers, one per attempt: `some s` is a response with
status string `s`, `none` is a thrown `checkTransactionStatus` (caught;
the loop continues). -/

inductive PaymentStatus where
  | pending
  | processing
  | confirmed
  | failed
  | expired
deriving Repr, DecidableEq

structure PaymentState where
  status : PaymentStatus
  mtnStatus : String
  balance : Int
deriving Repr, DecidableEq

inductive GatewayClass where
  | success
  | failure
  | pendingPoll
deriving Repr, DecidableEq

/-- `toLowerCase()` on the ASCII status strings the gateway returns,
character by character. -/
def jsToLower (s : String) : String := ⟨s.toList.map Char.toLower⟩

/-- `toUpperCase()` on the ASCII status strings the gateway returns,
character by character. -/
def jsToUpper (s : String) : String := ⟨s.toList.map Char.toUpper⟩

/-- Status classification of `pollWithdrawalStatus` (zils.js 1055-1081):
lowercase the gateway string; `confirmed|completed|success` is terminal
success, `failed|error|rejected` terminal failure, anything else keeps
polling. -/
def classifyWithdrawStatus (s : String) : GatewayClass :=
  let t := jsToLower s
  if ["confirmed", "completed", "success"].contains t then .success
  else if ["failed", "error", "rejected"].contains t then .failure
  else .pendingPoll

/-- Status classification of `pollDepositStatus` (zils.js 1182-1238):
uppercase the gateway string; `CONFIRMED|COMPLETED|SUCCESS|SUCCESSFUL|OK`
is terminal success, `FAILED|ERROR|REJECTED|DECLINED` terminal failure,
anything else keeps polling. -/
def classifyDepositStatus (s : String) : GatewayClass :=
  let t := jsToUpper s
  if ["CONFIRMED", "COMPLETED", "SUCCESS", "SUCCESSFUL", "OK"].contains t then .success
  else if ["FAILED", "ERROR", "REJECTED", "DECLINED"].contains t then .failure
  else .pendingPoll

/-- The §6 mapping exactly as the spec states it for both loops:
`SUCCESSFUL|SUCCESS|CONFIRMED|COMPLETED|OK` to success,
`FAILED|FAILURE|ERROR|REJECTED|DECLINED` to failure, case-insensitive,
anything else still pending. -/
def specGatewayClassify (s : String) : GatewayClass :=
  let t := jsToUpper s
  if ["SUCCESSFUL", "SUCCESS", "CONFIRMED", "COMPLETED", "OK"].contains t then .success
  else if ["FAILED", "FAILURE", "ERROR", "REJECTED", "DECLINED"].contains t then .failure
  else .pendingPoll

def MAX_POLLS : Nat := 60

/-- `pollWithdrawalStatus` (zils.js 1042-1136) from a given attempt
number: on success mark `confirmed` (no balance change); on failure mark
`failed` and refund; still pending on the final attempt marks `expired`
and refunds; a thrown status check is caught and the loop continues (even
on the final attempt, skipping the expiry branch). -/
def pollWithdrawalFrom (amount : Int) :
    Nat → List (Option String) → PaymentState → PaymentState
  | _, [], st => st
  | attempt, resp :: rest, st =>
    if MAX_POLLS < attempt then st
    else
      match resp with
      | none => pollWithdrawalFrom amount (attempt + 1) rest st
      | some s =>
        match classifyWithdrawStatus s with
        | .success => { st with status := .confirmed, mtnStatus := jsToLower s }
        | .failure => { st with status := .failed, mtnStatus := jsToLower s,
                                balance := st.balance + amount }
        | .pendingPoll =>
          if attempt = MAX_POLLS then
            { st with status := .expired, mtnStatus := "TIMEOUT",
                      balance := st.balance + amount }
          else pollWithdrawalFrom amount (attempt + 1) rest st

def pollWithdrawalStatus (amount : Int) (resps : List (Option String))
    (st : PaymentState) : PaymentState :=
  pollWithdrawalFrom amount 1 resps st

/-- `pollDepositStatus` (zils.js 1143-1298) from a given attempt number:
on success mark `confirmed` and credit the balance — without reading the
intent's current status first; on failure mark `failed`; still pending on
the final attempt marks `expired`; a thrown status check is caught and
the loop continues. -/
def pollDepositFrom (amount : Int) :
    Nat → List (Option String) → PaymentState → PaymentState
  | _, [], st => st
  | attempt, resp :: rest, st =>
    if MAX_POLLS < attempt then st
    else
      match resp with
      | none => pollDepositFrom amount (attempt + 1) rest st
      | some s =>
        match classifyDepositStatus s with
        | .success => { st with status := .confirmed, mtnStatus := jsToUpper s,
                                balance := st.balance + amount }
        | .failure => { st with status := .failed, mtnStatus := jsToUpper s }
        | .pendingPoll =>
          if attempt = MAX_POLLS then
            { st with status := .expired, mtnStatus := "TIMEOUT" }
          else pollDepositFrom amount (attempt + 1) rest st

def pollDepositStatus (amount : Int) (resps : List (Option String))
    (st : PaymentState) : PaymentState :=
  pollDepositFrom amount 1 resps st

/-- The terminal outcome a polling run reaches, as a function of the
gateway answers alone. -/
inductive PollOutcome where
  | success
  | failure
  | timeout
  | exhausted
deriving Repr, DecidableEq

def pollOutcomeFrom (classify : String → GatewayClass) :
    Nat → List (Option String) → PollOutcome
  | _, [] => .exhausted
  | attempt, resp :: rest =>
    if MAX_POLLS < attempt then .exhausted
    else
      match resp with
      | none => pollOutcomeFrom classify (attempt + 1) rest
      | some s =>
        match classify s with
        | .success => .success
        | .failure => .failure
        | .pendingPoll =>
          if attempt = MAX_POLLS then .timeout
          else pollOutcomeFrom classify (attempt + 1) rest

def depositOutcome (resps : List (Option String)) : PollOutcome :=
  pollOutcomeFrom classifyDepositStatus 1 resps

def withdrawOutcome (resps : List (Option String)) : PollOutcome :=
  pollOutcomeFrom classifyWithdrawStatus 1 resps

/-- `POST /withdraw` (zils.js 857-995): the pre-transaction balance check
rejects with 402 when the balance is short; otherwise a later transaction
debits the balance unconditionally and inserts the intent with status
`processing`. -/
def withdrawCreate (amount : Int) (balance : Int) : Option PaymentState :=
  if balance < amount then none
  else some { status := .processing, mtnStatus := "PROCESSING",
              balance := balance - amount }

/-- `admin.js` `POST /payments/:paymentId/mark-confirmed` (lines
650-679): lock the intent row, set `status='confirmed'` and, for a
deposit, credit the user by `amount`. The locked row's previous status is
read but never examined. -/
def adminMarkConfirmed (isDeposit : Bool) (amount : Int)
    (st : PaymentState) : PaymentState :=
  { st with status := .confirmed, mtnStatus := "CONFIRMED",
            balance := if isDeposit then st.balance + amount else st.balance }

/-- `admin.js` `POST /payments/:paymentId/mark-failed` (lines 713-742):
lock the intent row, set `status='failed'` and, for a withdrawal, refund
the user by `amount`; the previous status is never examined. -/
def adminMarkFailed (isWithdraw : Bool) (amount : Int)
    (st : PaymentState) : PaymentState :=
  { st with status := .failed, mtnStatus := "FAILED",
            balance := if isWithdraw then st.balance + amount else st.balance }

/-! ## Spec-side derivations used for comparison -/

/-- The crash-point formula exactly as the spec sentence states it:
`crash = floor(100 * (100*E - H) / (E - H)) / 100`, clamped to at least
1.00, with 1.00 when `E - H <= 0` — in cents. -/
def specClaimCrashFormula (h : Nat) : Nat :=
  if twoPow52 ≤ h then 100
  else max 100 ((100 * (100 * twoPow52 - h)) / (twoPow52 - h))

/-- The spec sentence's full derivation: HMAC-SHA256 of the seed with the
empty client seed, first 13 hex characters, then `specClaimCrashFormula`. -/
def specClaimDerive (seed : String) : Nat :=
  specClaimCrashFormula (parseHex13 (hmacSha256Hex seed ""))

/-- The derivation with the formula the code actually computes:
`crash = floor((100*E - H) / (E - H)) / 100`, clamped to at least 1.00. -/
def specAmendedDerive (seed : String) : Nat :=
  let h := parseHex13 (hmacSha256Hex seed "")
  if twoPow52 ≤ h then 100
  else max 100 ((100 * twoPow52 - h) / (twoPow52 - h))

/-! ## Concrete scenario states used to instantiate theorems -/

/-- The rounds row produced by a one-round master-mode run with
`SEED_MASTER = "m"`. -/
def c1row : RoundRow :=
  (serverRun (some "m") [] [(0, 2000)]).rounds.headD
    ⟨0, none, none, none, 0, none, none, false, none⟩

/-- A `(user, round)` about to cash out: active 10.00 bet, balance 50.00,
settlement columns untouched. -/
def c6db : CashoutDb := ⟨none, none, some ⟨1000, .active, none, none⟩, 5000⟩

/-- A running round with crash point 3.50 started at 0, with player 7
holding a 10.00 bet. -/
def c6eng : EngineState :=
  ⟨some ⟨1, 350, "s", "h", some 1, .running, 0, none, false,
         [(7, ⟨1000, false, none, none, none⟩)], true, false⟩, none⟩

/-- `c6eng` after player 7 cashes out at t=2200 (multiplier 3.20,
payout 32.00). -/
def c6eng2 : EngineState :=
  ⟨some ⟨1, 350, "s", "h", some 1, .running, 0, none, false,
         [(7, ⟨1000, true, some 3200, some 2200, some 320⟩)], true, false⟩, none⟩

/-- A running round with crash point 3.50 started at 0 and no players. -/
def c9eng : EngineState :=
  ⟨some ⟨1, 350, "s", "h", none, .running, 0, none, false, [], true, false⟩, none⟩

/-! ## The master-mode commitment invariant (C1) -/

/-- The shape `seed_commits` has after `k` master-mode insertions:
rows `1..k`, each committing `sha256hex` of the deterministic seed
`hmacHex(SEED_MASTER, String(idx))`. -/
def mkMasterCommits (m : String) (k : Nat) : List CommitRow :=
  (List.range k).map (fun j => ⟨j + 1, sha256hex (masterSeedFor m (j + 1))⟩)

/-- The system invariant maintained by every boot/start/crash step when
`SEED_MASTER` is configured: the commit table has the master shape, the
pending seed and the live round carry the deterministic seed of their
commit index together with its hash, every persisted revealed round binds
seed, hash and crash point, and round ids persist uniquely below the
mint. -/
structure MasterInv (m : String) (k : Nat) (st : SysState) : Prop where
  commits_eq : st.commits = mkMasterCommits m k
  pending_ok : ∀ p, st.engine.pendingSeedObj = some p →
    p.seed = masterSeedFor m p.commitIdx ∧
    p.seedHash = sha256hex p.seed ∧
    1 ≤ p.commitIdx ∧ p.commitIdx ≤ k
  current_ok : ∀ r, st.engine.currentRound = some r →
    r.crashPoint = (computeCrashPointFromSeed r.serverSeed "").crashPoint ∧
    ∀ i, r.commitIdx = some i →
      r.serverSeed = masterSeedFor m i ∧
      r.serverSeedHash = sha256hex r.serverSeed ∧
      1 ≤ i ∧ i ≤ k
  rounds_ok : ∀ row ∈ st.rounds, ∀ i s,
    row.commitIdx = some i → row.serverSeed = some s →
    s = masterSeedFor m i ∧ 1 ≤ i ∧ i ≤ k ∧
    row.serverSeedHash = some (sha256hex s) ∧
    row.crashPoint = some ((computeCrashPointFromSeed s "").crashPoint)
  ids_lt : ∀ row ∈ st.rounds, row.roundId < st.nextRoundId
  cur_id_lt : ∀ r, st.engine.currentRound = some r →
    r.roundId < st.nextRoundId
  link_ok : ∀ r, st.engine.currentRound = some r →
    ∀ row ∈ st.rounds, row.roundId = r.roundId →
    row.commitIdx = jsNatOptOrNull r.commitIdx ∧
    row.serverSeedHash = jsStrOrNull r.serverSeedHash

/-! ## Known-answer checks for the embedded crypto

FIPS 180-4 and RFC-style vectors, evaluated by the kernel, tying
`sha256hex` / `hmacSha256Hex` to the primitives node-crypto computes. -/

theorem sha256hex_abc :
    sha256hex "abc" =
      "ba7816bf8f01cfea414140de5dae2223b00361a396177a9cb410ff61f20015ad" := by
  decide

theorem sha256hex_empty :
    sha256hex "" =
      "e3b0c44298fc1c149afbf4c8996fb92427ae41e4649b934ca495991b7852b855" := by
  decide

theorem hmacSha256Hex_key_empty :
    hmacSha256Hex "key" "" =
      "5d5d139563c95b5967b9bd9a8c9b233a9dedb45072794cd232dc1b74832607d0" := by
  decide

/-! ## Arithmetic facts about the crash-point mapping -/

theorem hexCharVal_le (c : Char) : hexCharVal c ≤ 15 := by
  unfold hexCharVal
  split <;> omega

theorem hexFold_lt (l : List Char) :
    ∀ acc B, acc < B →
      l.foldl (fun a c => a * 16 + hexCharVal c) acc < B * 16 ^ l.length := by
  induction l with
  | nil => intro acc B h; simpa using h
  | cons c rest ih =>
    intro acc B h
    have hc := hexCharVal_le c
    have step : acc * 16 + hexCharVal c < B * 16 := by nlinarith
    have := ih (acc * 16 + hexCharVal c) (B * 16) step
    simpa [List.length_cons, pow_succ, mul_assoc, mul_comm, mul_left_comm] using this

theorem parseHex13_lt (s : String) : parseHex13 s < twoPow52 := by
  have hlen : (s.toList.take 13).length ≤ 13 := by
    simp [List.length_take]
  have h := hexFold_lt (s.toList.take 13) 0 1 (by omega)
  have hpow : (16 : Nat) ^ (s.toList.take 13).length ≤ 16 ^ 13 :=
    Nat.pow_le_pow_right (by omega) hlen
  have : parseHex13 s < 16 ^ 13 := by
    calc parseHex13 s < 1 * 16 ^ (s.toList.take 13).length := h
    _ = 16 ^ (s.toList.take 13).length := by ring
    _ ≤ 16 ^ 13 := hpow
  simpa [twoPow52] using this

theorem hashToCrashPoint_eq (hashHex : String) :
    hashToCrashPoint hashHex =
      if twoPow52 ≤ parseHex13 hashHex then 100
      else max 100 ((100 * twoPow52 - parseHex13 hashHex) /
                    (twoPow52 - parseHex13 hashHex)) := rfl

theorem hashToCrashPoint_ge (hashHex : String) : 100 ≤ hashToCrashPoint hashHex := by
  rw [hashToCrashPoint_eq]
  split
  · omega
  · exact Nat.le_max_left _ _

/-- For every 52-bit prefix value, the quotient the code floors is
strictly below the quotient of the spec sentence (which has an extra
factor of 100 in the numerator). -/
theorem code_formula_lt_claim_formula (hashHex : String) :
    hashToCrashPoint hashHex < specClaimCrashFormula (parseHex13 hashHex) := by
  have hlt := parseHex13_lt hashHex
  set h := parseHex13 hashHex with hh
  have hE : twoPow52 = 4503599627370496 := rfl
  have hden : 0 < twoPow52 - h := by omega
  have hq100 : 100 ≤ (100 * twoPow52 - h) / (twoPow52 - h) := by
    rw [Nat.le_div_iff_mul_le hden]
    omega
  have hqq : 100 * ((100 * twoPow52 - h) / (twoPow52 - h)) ≤
      (100 * (100 * twoPow52 - h)) / (twoPow52 - h) := by
    rw [Nat.le_div_iff_mul_le hden]
    have hbase : (100 * twoPow52 - h) / (twoPow52 - h) * (twoPow52 - h) ≤
        100 * twoPow52 - h := Nat.div_mul_le_self _ _
    nlinarith
  have hnot : ¬ twoPow52 ≤ h := by omega
  have hcode : hashToCrashPoint hashHex =
      (100 * twoPow52 - h) / (twoPow52 - h) := by
    rw [hashToCrashPoint_eq, ← hh, if_neg hnot]
    exact Nat.max_eq_right hq100
  have hclaim : specClaimCrashFormula h =
      (100 * (100 * twoPow52 - h)) / (twoPow52 - h) := by
    unfold specClaimCrashFormula
    rw [if_neg hnot]
    exact Nat.max_eq_right (by omega)
  rw [hcode, hclaim]
  omega

/-! ## C3 — crash-point derivation -/

/-- C3 (amended): for every seed the engine computes
`h = HMAC_SHA256(seed, "")`, takes the first 13 hex characters of `h` as a
52-bit unsigned integer `H` — always strictly below `E = 2^52`, so the
`E − H ≤ 0` branch cannot fire — and returns
`floor((100·E − H) / (E − H)) / 100` clamped to at least 1.00. The claim's
formula carries an extra factor 100 inside the floor; the code's does
not. -/
theorem C3_crash_derivation (seed : String) :
    parseHex13 (hmacSha256Hex seed "") < twoPow52 ∧
    (computeCrashPointFromSeed seed "").hashHex = hmacSha256Hex seed "" ∧
    (computeCrashPointFromSeed seed "").crashPoint = specAmendedDerive seed ∧
    100 ≤ (computeCrashPointFromSeed seed "").crashPoint := by
  refine ⟨parseHex13_lt _, ?_, ?_, ?_⟩
  · dsimp only [computeCrashPointFromSeed]
  · dsimp only [computeCrashPointFromSeed, specAmendedDerive]
    rw [hashToCrashPoint_eq]
  · dsimp only [computeCrashPointFromSeed]
    exact hashToCrashPoint_ge _

/-- C3 counterexample: at the concrete seed "a" (as at every seed), the
crash point the engine computes differs from the claim's formula
`floor(100 · (100·E − H) / (E − H)) / 100`. -/
theorem C3_counterexample :
    (computeCrashPointFromSeed "a" "").crashPoint ≠ specClaimDerive "a" := by
  dsimp only [computeCrashPointFromSeed, specClaimDerive]
  exact Nat.ne_of_lt (code_formula_lt_claim_formula (hmacSha256Hex "a" ""))

/-! ## C7 — persistRoundCrash and the settlement window -/

/-- C7: `persistRoundCrash` leaves `settlement_closed_at` of every rounds
row exactly as it was — its UPDATE writes only `crash_point`, `ended_at`,
`meta`, `server_seed` and `server_seed_revealed_at`, and no other
statement in the repository writes `settlement_closed_at` at all. -/
theorem C7_no_settlement_close (r : EngineRound) (rounds : List RoundRow) :
    (persistRoundCrash r rounds).map (fun row => row.settlementClosedAt) =
      rounds.map (fun row => row.settlementClosedAt) := by
  unfold persistRoundCrash
  rw [List.map_map]
  apply List.map_congr_left
  intro row _
  by_cases h : row.roundId = r.roundId <;> simp [h]

/-! ## C8 — gateway status mapping -/

theorem classifyWithdrawStatus_eq (s : String) :
    classifyWithdrawStatus s =
      if (["confirmed", "completed", "success"] : List String).contains (jsToLower s)
      then .success
      else if (["failed", "error", "rejected"] : List String).contains (jsToLower s)
      then .failure
      else .pendingPoll := rfl

theorem classifyDepositStatus_eq (s : String) :
    classifyDepositStatus s =
      if (["CONFIRMED", "COMPLETED", "SUCCESS", "SUCCESSFUL", "OK"] :
          List String).contains (jsToUpper s)
      then .success
      else if (["FAILED", "ERROR", "REJECTED", "DECLINED"] :
          List String).contains (jsToUpper s)
      then .failure
      else .pendingPoll := rfl

/-- C8 (amended): both polling loops classify case-insensitively, but over
different sets than the spec's single mapping: the deposit loop treats
`CONFIRMED|COMPLETED|SUCCESS|SUCCESSFUL|OK` as terminal success and
`FAILED|ERROR|REJECTED|DECLINED` as terminal failure (`FAILURE` keeps
polling); the withdrawal loop treats only `confirmed|completed|success`
as terminal success and only `failed|error|rejected` as terminal failure
(`SUCCESSFUL`, `OK`, `FAILURE`, `DECLINED` keep polling); every other
string keeps polling. -/
theorem triage_eq_success {b1 b2 : Bool} :
    (if b1 then GatewayClass.success
     else if b2 then GatewayClass.failure
     else GatewayClass.pendingPoll) = GatewayClass.success ↔ b1 = true := by
  cases b1 <;> cases b2 <;> simp

theorem triage_eq_failure {b1 b2 : Bool} :
    (if b1 then GatewayClass.success
     else if b2 then GatewayClass.failure
     else GatewayClass.pendingPoll) = GatewayClass.failure ↔
      (b1 = false ∧ b2 = true) := by
  cases b1 <;> cases b2 <;> simp

theorem C8_status_mapping (s : String) :
    (classifyWithdrawStatus s = .success ↔
      jsToLower s ∈ (["confirmed", "completed", "success"] : List String)) ∧
    (classifyWithdrawStatus s = .failure ↔
      jsToLower s ∈ (["failed", "error", "rejected"] : List String)) ∧
    (classifyDepositStatus s = .success ↔
      jsToUpper s ∈ (["CONFIRMED", "COMPLETED", "SUCCESS", "SUCCESSFUL", "OK"] :
        List String)) ∧
    (classifyDepositStatus s = .failure ↔
      jsToUpper s ∈ (["FAILED", "ERROR", "REJECTED", "DECLINED"] : List String)) := by
  rw [classifyWithdrawStatus_eq, classifyDepositStatus_eq]
  refine ⟨?_, ?_, ?_, ?_⟩
  · rw [triage_eq_success]
    exact List.elem_iff
  · rw [triage_eq_failure]
    constructor
    · rintro ⟨-, h2⟩
      exact List.elem_iff.mp h2
    · intro h
      refine ⟨?_, List.elem_iff.mpr h⟩
      simp only [List.mem_cons, List.not_mem_nil, or_false] at h
      rcases h with h1 | h1 | h1 <;> rw [h1] <;> decide
  · rw [triage_eq_success]
    exact List.elem_iff
  · rw [triage_eq_failure]
    constructor
    · rintro ⟨-, h2⟩
      exact List.elem_iff.mp h2
    · intro h
      refine ⟨?_, List.elem_iff.mpr h⟩
      simp only [List.mem_cons, List.not_mem_nil, or_false] at h
      rcases h with h1 | h1 | h1 | h1 <;> rw [h1] <;> decide

/-- C8 counterexample: the gateway answer `SUCCESSFUL`, which the spec's
mapping sends to terminal success in both loops, is classified as still
pending by the withdrawal polling loop. -/
theorem C8_counterexample :
    classifyWithdrawStatus "SUCCESSFUL" = .pendingPoll ∧
    specGatewayClassify "SUCCESSFUL" = .success := by decide

/-! ## C9 — the tick broadcaster and engine state -/

/-- C9 (amended): a broadcast tick leaves the engine state unchanged
whenever there is no current round, the round is not running, or the
recomputed multiplier is still below the crash point. (When the
multiplier has reached the crash point, `getRoundStatus` — called by the
tick — crashes the round, so the broadcaster is not read-only in
general.) -/
theorem C9_tick_frame (now : Nat) (st : EngineState)
    (h : ∀ r, st.currentRound = some r → r.status = .running →
         computeMultiplier now r.startedAt < r.crashPoint) :
    broadcastTick now st = st := by
  unfold broadcastTick getRoundStatus
  cases hc : st.currentRound with
  | none => simp [hc]
  | some r =>
    by_cases hrun : r.status = .running
    · have hm := h r hc hrun
      simp [hc, hrun, Nat.not_le.mpr hm]
    · simp [hc, hrun]

/-- C9 counterexample: with a running round whose crash point (2.00) is
already exceeded at tick time, the broadcast tick mutates the round to
`crashed` — the broadcaster is not read-only for every engine state. -/
theorem C9_counterexample :
    broadcastTick 2000
        ⟨some ⟨1, 200, "s", "h", none, .running, 0, none, false, [], true, false⟩,
         none⟩ ≠
      ⟨some ⟨1, 200, "s", "h", none, .running, 0, none, false, [], true, false⟩,
       none⟩ ∧
    (broadcastTick 2000
        ⟨some ⟨1, 200, "s", "h", none, .running, 0, none, false, [], true, false⟩,
         none⟩).currentRound.map (fun r => r.status) = some .crashed := by
  decide

/-- Witness for `C9_tick_frame` at a concrete state: crash point 3.50,
100 ms after start (multiplier 1.10). -/
theorem C9_tick_frame_witness :
    (∀ r, c9eng.currentRound = some r → r.status = .running →
        computeMultiplier 100 r.startedAt < r.crashPoint) ∧
    broadcastTick 100 c9eng = c9eng := by
  have h : ∀ r, c9eng.currentRound = some r → r.status = .running →
      computeMultiplier 100 r.startedAt < r.crashPoint := by
    intro r hr _
    have hr2 : (⟨1, 350, "s", "h", none, .running, 0, none, false, [], true,
        false⟩ : EngineRound) = r := by
      simpa [c9eng] using hr
    rw [← hr2]
    decide
  exact ⟨h, C9_tick_frame 100 c9eng h⟩

/-! ## C10 — cashout rate-limit lockout -/

theorem processCashoutRequests_denied (uid : Nat) :
    ∀ (ts : List Nat) (tPrev : Nat),
      List.Chain (fun a b => a ≤ b ∧ b - a < CASHOUT_MIN_INTERVAL_MS) tPrev ts →
      processCashoutRequests uid ts [(uid, tPrev)] =
        List.replicate ts.length false := by
  intro ts
  induction ts with
  | nil => intro tPrev _; rfl
  | cons t rest ih =>
    intro tPrev h
    rw [List.chain_cons] at h
    obtain ⟨⟨hle, hgap⟩, hchain⟩ := h
    have hstep : cashoutRateCheck t uid [(uid, tPrev)] = (false, [(uid, t)]) := by
      simp [cashoutRateCheck, mapGetD, mapSet, pruneCashoutMapByAge,
            CASHOUT_MIN_INTERVAL_MS, CASHOUT_PRUNE_AGE_MS, MAX_CASHOUT_ENTRIES] at hgap ⊢
      omega
    have := ih t hchain
    simp [processCashoutRequests, hstep, this, List.replicate_succ]

/-- C10: a `POST /cashout` request closer than `CASHOUT_MIN_INTERVAL_MS`
(default 1000 ms) to the same user's previous attempt is rejected, and
the rejected attempt itself overwrites the stored timestamp — so in any
request sequence whose consecutive gaps all stay under the interval,
every request after the first is rejected, however much total time has
passed. -/
theorem C10_rate_limit_lockout (uid t0 : Nat) (ts : List Nat)
    (h : List.Chain (fun a b => a ≤ b ∧ b - a < CASHOUT_MIN_INTERVAL_MS) t0 ts) :
    (processCashoutRequests uid (t0 :: ts) []).tail =
      List.replicate ts.length false := by
  have hfirst : (cashoutRateCheck t0 uid []).2 = [(uid, t0)] := by
    simp only [cashoutRateCheck, mapGetD, mapSet, pruneCashoutMapByAge,
          CASHOUT_PRUNE_AGE_MS, MAX_CASHOUT_ENTRIES]
    split <;> simp
  have : processCashoutRequests uid (t0 :: ts) [] =
      (cashoutRateCheck t0 uid []).1 :: processCashoutRequests uid ts [(uid, t0)] := by
    rw [processCashoutRequests]
    rw [← hfirst]
  rw [this]
  simpa using processCashoutRequests_denied uid ts t0 h

/-- Witness for `C10_rate_limit_lockout`: requests at 2000, 2500 and
3000 ms; the second and third are rejected. -/
theorem C10_rate_limit_lockout_witness :
    List.Chain (fun a b => a ≤ b ∧ b - a < CASHOUT_MIN_INTERVAL_MS) 2000
      [2500, 3000] ∧
    (processCashoutRequests 7 (2000 :: [2500, 3000]) []).tail =
      List.replicate 2 false := by
  have hch : List.Chain (fun a b => a ≤ b ∧ b - a < CASHOUT_MIN_INTERVAL_MS)
      2000 [2500, 3000] :=
    List.Chain.cons ⟨by omega, by decide⟩
      (List.Chain.cons ⟨by omega, by decide⟩ List.Chain.nil)
  exact ⟨hch, C10_rate_limit_lockout 7 2000 [2500, 3000] hch⟩

/-! ## C2 — no negative balances -/

theorem ledger_nonneg_aux :
    ∀ (ops : List AccountOp) (st : LedgerState),
      0 ≤ st.balance → st.pendingWithdrawals = [] →
      (∀ op ∈ ops, 0 ≤ opAmount op) →
      0 ≤ (ledgerRun st (compileOps ops)).balance ∧
        (ledgerRun st (compileOps ops)).pendingWithdrawals = [] := by
  intro ops
  induction ops with
  | nil => intro st h1 h2 _; exact ⟨h1, h2⟩
  | cons op rest ih =>
    intro st h1 h2 hpos
    have hop : 0 ≤ opAmount op := hpos op (List.mem_cons_self _ _)
    have hrest : ∀ o ∈ rest, 0 ≤ opAmount o :=
      fun o ho => hpos o (List.mem_cons_of_mem _ ho)
    cases op with
    | bet a =>
      rw [compileOps, ledgerRun, List.foldl_cons]
      by_cases hcov : a ≤ st.balance
      · exact ih _ (by simp [ledgerStep, hcov]) (by simp [ledgerStep, hcov, h2]) hrest
      · exact ih _ (by simp [ledgerStep, hcov]; omega) (by simp [ledgerStep, hcov, h2]) hrest
    | credit a =>
      rw [compileOps, ledgerRun, List.foldl_cons]
      refine ih _ ?_ (by simp [ledgerStep, h2]) hrest
      simp only [ledgerStep, opAmount] at hop ⊢
      omega
    | withdraw a =>
      rw [compileOps, ledgerRun, List.foldl_cons, List.foldl_cons]
      by_cases hcov : st.balance < a
      · exact ih _ (by simp [ledgerStep, hcov, h2]; omega)
          (by simp [ledgerStep, hcov, h2]) hrest
      · exact ih _ (by simp [ledgerStep, hcov, h2]; omega)
          (by simp [ledgerStep, hcov, h2]) hrest

/-- C2 (amended): with non-negative starting balance and non-negative
amounts, the balance never goes negative as long as each withdrawal's
balance check and debit run back to back (no other debit between them) —
the bet debit is conditional in its own SQL statement, and credits only
add. The withdrawal debit itself is unconditional and separated from its
check, which is what the counterexample exploits. -/
theorem C2_no_negative_balance (ops : List AccountOp) (b : Int)
    (hb : 0 ≤ b) (hpos : ∀ op ∈ ops, 0 ≤ opAmount op) :
    0 ≤ (ledgerRun ⟨b, []⟩ (compileOps ops)).balance :=
  (ledger_nonneg_aux ops ⟨b, []⟩ hb rfl hpos).1

/-- C2 counterexample: balance 50.00; a 20.00 withdrawal passes its
balance check, a 40.00 bet debit interleaves, and the withdrawal's
unconditional debit then drives the balance to −10.00. -/
theorem C2_counterexample :
    (ledgerRun ⟨5000, []⟩
      [.withdrawCheck 2000, .betDebit 4000, .withdrawDebit]).balance < 0 := by
  decide

/-- Witness for `C2_no_negative_balance`: credit 10.00, bet 3.00,
withdraw 2.00 from a zero starting balance. -/
theorem C2_no_negative_balance_witness :
    (0 : Int) ≤ 0 ∧
    (∀ op ∈ ([.credit 1000, .bet 300, .withdraw 200] : List AccountOp),
      0 ≤ opAmount op) ∧
    0 ≤ (ledgerRun ⟨0, []⟩
      (compileOps [.credit 1000, .bet 300, .withdraw 200])).balance :=
  ⟨by decide, by decide,
   C2_no_negative_balance [.credit 1000, .bet 300, .withdraw 200] 0
     (by decide) (by decide)⟩

/-! ## C4 — deposit credit, once per polling run -/

theorem pollDepositFrom_char (amount : Int) :
    ∀ (resps : List (Option String)) (attempt : Nat) (st : PaymentState),
      (pollDepositFrom amount attempt resps st).balance =
        st.balance +
          (if pollOutcomeFrom classifyDepositStatus attempt resps = .success
           then amount else 0) ∧
      (pollDepositFrom amount attempt resps st).status =
        (match pollOutcomeFrom classifyDepositStatus attempt resps with
         | .success => PaymentStatus.confirmed
         | .failure => PaymentStatus.failed
         | .timeout => PaymentStatus.expired
         | .exhausted => st.status) := by
  intro resps
  induction resps with
  | nil => intro attempt st; simp [pollDepositFrom, pollOutcomeFrom]
  | cons resp rest ih =>
    intro attempt st
    rw [pollDepositFrom.eq_def, pollOutcomeFrom.eq_def]
    by_cases hmax : MAX_POLLS < attempt
    · simp [hmax]
    · simp only [if_neg hmax]
      cases resp with
      | none => exact ih (attempt + 1) st
      | some s =>
        cases hcls : classifyDepositStatus s with
        | success => simp [hcls]
        | failure => simp [hcls]
        | pendingPoll =>
          by_cases hlast : attempt = MAX_POLLS
          · simp [hcls, hlast]
          · simp only [hcls, if_neg hlast]
            exact ih (attempt + 1) st

/-- C4 (amended): one run of the deposit polling loop credits the user at
most once — the balance rises by `amount` exactly when the run reaches a
terminal success answer, in the same transaction that moves the intent to
`confirmed`. But no confirming path re-reads the intent's status under
lock: the poller's confirm transaction and the admin mark-confirmed
endpoint both credit unconditionally, so a deposit confirmed through two
paths is credited twice (see the counterexample). -/
theorem C4_deposit_credit_once (amount : Int) (resps : List (Option String))
    (st : PaymentState) :
    (pollDepositStatus amount resps st).balance =
      st.balance + (if depositOutcome resps = .success then amount else 0) ∧
    (pollDepositStatus amount resps st).status =
      (match depositOutcome resps with
       | .success => PaymentStatus.confirmed
       | .failure => PaymentStatus.failed
       | .timeout => PaymentStatus.expired
       | .exhausted => st.status) :=
  pollDepositFrom_char amount resps 1 st

/-- C4 counterexample: a pending 50.00 deposit is confirmed and credited
by the poller; an admin mark-confirmed afterwards credits it again —
ending at balance 100.00 for one 50.00 intent, because neither path exits
on an already-terminal status. -/
theorem C4_counterexample :
    (pollDepositStatus 5000 [some "SUCCESSFUL"]
        ⟨.pending, "PENDING", 0⟩).status = .confirmed ∧
    (pollDepositStatus 5000 [some "SUCCESSFUL"]
        ⟨.pending, "PENDING", 0⟩).balance = 5000 ∧
    (adminMarkConfirmed true 5000
        (pollDepositStatus 5000 [some "SUCCESSFUL"]
          ⟨.pending, "PENDING", 0⟩)).status = .confirmed ∧
    (adminMarkConfirmed true 5000
        (pollDepositStatus 5000 [some "SUCCESSFUL"]
          ⟨.pending, "PENDING", 0⟩)).balance = 10000 := by
  decide

/-! ## C5 — withdraw debit/refund symmetry -/

theorem pollWithdrawalFrom_char (amount : Int) :
    ∀ (resps : List (Option String)) (attempt : Nat) (st : PaymentState),
      (pollWithdrawalFrom amount attempt resps st).balance =
        st.balance +
          (if pollOutcomeFrom classifyWithdrawStatus attempt resps = .failure ∨
              pollOutcomeFrom classifyWithdrawStatus attempt resps = .timeout
           then amount else 0) ∧
      (pollWithdrawalFrom amount attempt resps st).status =
        (match pollOutcomeFrom classifyWithdrawStatus attempt resps with
         | .success => PaymentStatus.confirmed
         | .failure => PaymentStatus.failed
         | .timeout => PaymentStatus.expired
         | .exhausted => st.status) := by
  intro resps
  induction resps with
  | nil => intro attempt st; simp [pollWithdrawalFrom, pollOutcomeFrom]
  | cons resp rest ih =>
    intro attempt st
    rw [pollWithdrawalFrom.eq_def, pollOutcomeFrom.eq_def]
    by_cases hmax : MAX_POLLS < attempt
    · simp [hmax]
    · simp only [if_neg hmax]
      cases resp with
      | none => exact ih (attempt + 1) st
      | some s =>
        cases hcls : classifyWithdrawStatus s with
        | success => simp [hcls]
        | failure => simp [hcls]
        | pendingPoll =>
          by_cases hlast : attempt = MAX_POLLS
          · simp [hcls, hlast]
          · simp only [hcls, if_neg hlast]
            exact ih (attempt + 1) st

/-- C5: a withdraw intent of amount `a` debits the balance by `a` at
creation (after the balance check); a polling run that ends `confirmed`
changes nothing further (net −a), and one that ends `failed` or `expired`
refunds the debit (net 0). A run with no terminal classification stays
`processing` with the debit kept. -/
theorem C5_withdraw_symmetry (amount b : Int) (resps : List (Option String))
    (hcov : ¬ b < amount) :
    ∃ st, withdrawCreate amount b = some st ∧
      st.balance = b - amount ∧ st.status = .processing ∧
      (pollWithdrawalStatus amount resps st).balance =
        (if (pollWithdrawalStatus amount resps st).status = .failed ∨
            (pollWithdrawalStatus amount resps st).status = .expired
         then b else b - amount) := by
  refine ⟨⟨.processing, "PROCESSING", b - amount⟩, ?_, rfl, rfl, ?_⟩
  · simp [withdrawCreate, hcov]
  · obtain ⟨hbal, hstat⟩ :=
      pollWithdrawalFrom_char amount resps 1 ⟨.processing, "PROCESSING", b - amount⟩
    rw [pollWithdrawalStatus] at *
    cases hout : pollOutcomeFrom classifyWithdrawStatus 1 resps <;>
      rw [hout] at hbal hstat <;> simp_all

/-- Witness for `C5_withdraw_symmetry`: a 20.00 withdrawal from balance
70.00 whose polling ends `FAILED` — the debit is refunded. -/
theorem C5_withdraw_symmetry_witness :
    ¬ (7000 : Int) < 2000 ∧
    (∃ st, withdrawCreate 2000 7000 = some st ∧
      st.balance = 7000 - 2000 ∧ st.status = .processing ∧
      (pollWithdrawalStatus 2000 [some "FAILED"] st).balance =
        (if (pollWithdrawalStatus 2000 [some "FAILED"] st).status = .failed ∨
            (pollWithdrawalStatus 2000 [some "FAILED"] st).status = .expired
         then 7000 else 7000 - 2000)) :=
  ⟨by decide, C5_withdraw_symmetry 2000 7000 [some "FAILED"] (by decide)⟩

/-! ## C6 — cashout idempotency -/

/-- C6: a first successful cashout settlement credits the payout and
marks the bet `cashed`; every later settlement of the same `(user,
round)` hits the idempotency branch: it returns the same payout with
`idempotent = true` and leaves balance, bet row and engine state exactly
as they were. -/
theorem C6_cashout_idempotent (t1 t2 uid : Nat) (db : CashoutDb)
    (eng : EngineState) (bet : BetRow) (res : EngineCashRes)
    (eng2 : EngineState)
    (hbet : db.bet = some bet) (hact : bet.status = .active)
    (hopen : db.settlementClosedAt = none)
    (heng : engineCashOut t1 uid eng = .ok (res, eng2))
    (hwin : res.win = true) :
    ∃ r1 db1,
      cashoutTx t1 uid db eng = .ok (r1, db1, eng2) ∧
      r1.success = true ∧ r1.payout = res.payout ∧ r1.idempotent = false ∧
      db1.balance = db.balance + (res.payout : Int) ∧
      cashoutTx t2 uid db1 eng2 =
        .ok (⟨true, res.payout, none, some db1.balance, true⟩, db1, eng2) := by
  have hfirst : cashoutTx t1 uid db eng =
      .ok (⟨true, res.payout, some res.multiplier,
            some (db.balance + (res.payout : Int)), false⟩,
           ⟨db.roundEndedAt, db.settlementClosedAt,
            some ⟨bet.betAmount, .cashed, some res.payout, some t1⟩,
            db.balance + (res.payout : Int)⟩,
           eng2) := by
    unfold cashoutTx
    rw [hopen, hbet]
    simp [hact, heng, hwin]
  refine ⟨_, _, hfirst, rfl, rfl, rfl, rfl, ?_⟩
  unfold cashoutTx
  rw [hopen]
  simp

/-- Witness for `C6_cashout_idempotent`: crash point 3.50, 10.00 bet,
cashout at 2200 ms (multiplier 3.20, payout 32.00), second settlement at
3000 ms. -/
theorem C6_cashout_idempotent_witness :
    c6db.bet = some ⟨1000, .active, none, none⟩ ∧
    (⟨1000, .active, none, none⟩ : BetRow).status = .active ∧
    c6db.settlementClosedAt = none ∧
    engineCashOut 2200 7 c6eng = .ok (⟨true, 3200, 320⟩, c6eng2) ∧
    (⟨true, 3200, 320⟩ : EngineCashRes).win = true ∧
    (∃ r1 db1,
      cashoutTx 2200 7 c6db c6eng = .ok (r1, db1, c6eng2) ∧
      r1.success = true ∧ r1.payout = 3200 ∧ r1.idempotent = false ∧
      db1.balance = c6db.balance + (3200 : Int) ∧
      cashoutTx 3000 7 db1 c6eng2 =
        .ok (⟨true, 3200, none, some db1.balance, true⟩, db1, c6eng2)) :=
  ⟨by decide, rfl, rfl, by rfl, rfl,
   C6_cashout_idempotent 2200 3000 7 c6db c6eng ⟨1000, .active, none, none⟩
     ⟨true, 3200, 320⟩ c6eng2 (by decide) rfl rfl (by rfl) rfl⟩

/-! ## C1 — commitment binding: supporting lemmas -/

theorem sha256Bytes_length (msg : List Nat) : (sha256Bytes msg).length = 32 := rfl

theorem hmacSha256Bytes_length (key msg : List Nat) :
    (hmacSha256Bytes key msg).length = 32 := rfl

theorem bytesToHex_ne_empty (l : List Nat) (h : l ≠ []) : bytesToHex l ≠ "" := by
  cases l with
  | nil => exact absurd rfl h
  | cons b rest =>
    intro hcontra
    have hdata : (bytesToHex (b :: rest)).data = ("" : String).data := by
      rw [hcontra]
    simp [bytesToHex, byteToHex] at hdata

theorem sha256hex_ne_empty (s : String) : sha256hex s ≠ "" := by
  apply bytesToHex_ne_empty
  intro h
  have := sha256Bytes_length (strBytes s)
  rw [h] at this
  simp at this

theorem hmacSha256Hex_ne_empty (key msg : String) : hmacSha256Hex key msg ≠ "" := by
  apply bytesToHex_ne_empty
  intro h
  have := hmacSha256Bytes_length (strBytes key) (strBytes msg)
  rw [h] at this
  simp at this

theorem masterSeedFor_ne_empty (m : String) (i : Nat) : masterSeedFor m i ≠ "" :=
  hmacSha256Hex_ne_empty m (toString i)

theorem mkMasterCommits_succ (m : String) (k : Nat) :
    mkMasterCommits m (k + 1) =
      mkMasterCommits m k ++ [⟨k + 1, sha256hex (masterSeedFor m (k + 1))⟩] := by
  unfold mkMasterCommits
  rw [List.range_succ, List.map_append]
  rfl

theorem mem_mkMasterCommits {m : String} {k : Nat} {c : CommitRow} :
    c ∈ mkMasterCommits m k ↔
      ∃ i, 1 ≤ i ∧ i ≤ k ∧ c = ⟨i, sha256hex (masterSeedFor m i)⟩ := by
  unfold mkMasterCommits
  rw [List.mem_map]
  constructor
  · rintro ⟨j, hj, rfl⟩
    rw [List.mem_range] at hj
    exact ⟨j + 1, by omega, by omega, rfl⟩
  · rintro ⟨i, h1, h2, rfl⟩
    have hi : i - 1 + 1 = i := by omega
    exact ⟨i - 1, by rw [List.mem_range]; omega, by simp only [hi]⟩

theorem maxCommitIdx_mk (m : String) (k : Nat) :
    maxCommitIdx (mkMasterCommits m k) = k := by
  induction k with
  | zero => rfl
  | succ n ih =>
    rw [mkMasterCommits_succ]
    unfold maxCommitIdx at ih ⊢
    rw [List.foldl_append]
    simp [ih]

theorem find?_mk_next (m : String) (k : Nat) :
    (mkMasterCommits m k).find? (fun c => c.idx = k + 1) = none := by
  rw [List.find?_eq_none]
  intro c hc
  obtain ⟨i, h1, h2, rfl⟩ := mem_mkMasterCommits.mp hc
  simp
  omega

theorem any_roundId_false (rounds : List RoundRow) (n : Nat)
    (h : ∀ row ∈ rounds, row.roundId < n) :
    rounds.any (fun row => row.roundId = n) = false := by
  rw [List.any_eq_false]
  intro row hrow
  simp
  exact Nat.ne_of_lt (h row hrow)

/-- `ensureNextCommitExists` on a master-shaped table appends commit
`k+1` with the deterministic seed hash and touches nothing else. -/
theorem ensureNext_master (m : String) (st : SysState) (k : Nat)
    (hc : st.commits = mkMasterCommits m k) :
    ensureNextCommitExists (some m) st =
      (⟨k + 1, sha256hex (masterSeedFor m (k + 1))⟩,
       { st with commits := mkMasterCommits m (k + 1) }) := by
  unfold ensureNextCommitExists deriveSeedForIdx
  dsimp only
  rw [hc, maxCommitIdx_mk, find?_mk_next, mkMasterCommits_succ]
  rfl

/-- The state after a master-mode boot: commit 1 created, its
deterministic seed pending. -/
theorem serverBoot_eq (m : String) (randoms : List String) :
    serverBoot (some m) (initSysState randoms) =
      { engine := { currentRound := none,
                    pendingSeedObj := some ⟨masterSeedFor m 1,
                      sha256hex (masterSeedFor m 1), 1⟩ },
        commits := mkMasterCommits m 1, rounds := [], randoms := randoms,
        nextRoundId := 1 } := by
  unfold serverBoot
  rw [ensureNext_master m _ 0 rfl]
  dsimp only
  rw [show getLatestCommit (mkMasterCommits m 1) =
        some ⟨1, sha256hex (masterSeedFor m 1)⟩ from rfl]
  dsimp only [deriveSeedForIdx, initSysState]
  unfold setNextSeed
  split
  · next h =>
    exfalso
    rcases h with h | h
    · exact masterSeedFor_ne_empty m 1 h
    · exact sha256hex_ne_empty _ h
  · rfl

theorem markRoundCrashed_eq (t : Nat) (r : EngineRound)
    (hrun : ¬ r.status = .crashed) :
    markRoundCrashed t r =
      { r with status := .crashed, locked := true, endedAt := some t,
               timer := false, nextRoundTimer := true } := by
  unfold markRoundCrashed
  rw [if_neg hrun]

theorem createNewRound_pending (t : Nat) (st : SysState) (p : SeedObj)
    (hp : st.engine.pendingSeedObj = some p) :
    createNewRound t st =
      (⟨st.nextRoundId, (computeCrashPointFromSeed p.seed "").crashPoint,
        p.seed, p.seedHash, some p.commitIdx, .running, t, none, false, [],
        true, false⟩,
       { st with nextRoundId := st.nextRoundId + 1,
                 engine := ⟨some ⟨st.nextRoundId,
                     (computeCrashPointFromSeed p.seed "").crashPoint,
                     p.seed, p.seedHash, some p.commitIdx, .running, t, none,
                     false, [], true, false⟩, none⟩ }) := by
  unfold createNewRound
  dsimp only
  rw [hp]

theorem createNewRound_ephemeral (t : Nat) (st : SysState) (r0 : String)
    (rest : List String) (hp : st.engine.pendingSeedObj = none)
    (hr : st.randoms = r0 :: rest) :
    createNewRound t st =
      (⟨st.nextRoundId, (computeCrashPointFromSeed r0 "").crashPoint,
        r0, sha256hex r0, none, .running, t, none, false, [], true, false⟩,
       { st with nextRoundId := st.nextRoundId + 1, randoms := rest,
                 engine := ⟨some ⟨st.nextRoundId,
                     (computeCrashPointFromSeed r0 "").crashPoint,
                     r0, sha256hex r0, none, .running, t, none, false, [],
                     true, false⟩, st.engine.pendingSeedObj⟩ }) := by
  unfold createNewRound drawRandom
  dsimp only
  rw [hp, hr]
  dsimp only
  rw [hp]

theorem createNewRound_ephemeral_empty (t : Nat) (st : SysState)
    (hp : st.engine.pendingSeedObj = none) (hr : st.randoms = []) :
    createNewRound t st =
      (⟨st.nextRoundId, (computeCrashPointFromSeed "" "").crashPoint,
        "", sha256hex "", none, .running, t, none, false, [], true, false⟩,
       { st with nextRoundId := st.nextRoundId + 1,
                 engine := ⟨some ⟨st.nextRoundId,
                     (computeCrashPointFromSeed "" "").crashPoint,
                     "", sha256hex "", none, .running, t, none, false, [],
                     true, false⟩, st.engine.pendingSeedObj⟩ }) := by
  unfold createNewRound drawRandom
  dsimp only
  rw [hp, hr]
  dsimp only
  rw [hp]

theorem roundStartedHandler_eq (m : String) (r : EngineRound)
    (st : SysState) (k : Nat) (hc : st.commits = mkMasterCommits m k)
    (hany : st.rounds.any (fun row => row.roundId = r.roundId) = false) :
    roundStartedHandler (some m) r st =
      { st with
        rounds := st.rounds ++ [persistedStartRow r],
        commits := mkMasterCommits m (k + 1),
        engine := ⟨st.engine.currentRound,
          some ⟨masterSeedFor m (k + 1),
                sha256hex (masterSeedFor m (k + 1)), k + 1⟩⟩ } := by
  unfold roundStartedHandler persistRoundStart
  rw [hany]
  dsimp only
  rw [ensureNext_master m _ k (by exact hc)]
  dsimp only [deriveSeedForIdx]
  unfold setNextSeed
  split
  · next h =>
    exfalso
    rcases h with h | h
    · exact masterSeedFor_ne_empty m (k + 1) h
    · exact sha256hex_ne_empty _ h
  · rfl

theorem sysCrashRound_eq (t : Nat) (st : SysState) (r : EngineRound)
    (hcur : st.engine.currentRound = some r) (hrun : ¬ r.status = .crashed) :
    sysCrashRound t st =
      { st with
        engine := ⟨some (markRoundCrashed t r), st.engine.pendingSeedObj⟩,
        rounds := persistRoundCrash (markRoundCrashed t r) st.rounds } := by
  unfold sysCrashRound roundCrashedHandler
  rw [hcur]
  dsimp only
  rw [if_neg hrun]

theorem jsNatOptOrNull_some {o : Option Nat} {i : Nat}
    (h : jsNatOptOrNull o = some i) : o = some i := by
  unfold jsNatOptOrNull at h
  split at h
  · exact absurd h (by simp)
  · exact h

theorem jsStrOrNull_some {s0 s : String} (h : jsStrOrNull s0 = some s) :
    s0 = s := by
  unfold jsStrOrNull at h
  split at h
  · exact absurd h (by simp)
  · exact Option.some.inj h

theorem jsStrOrNull_of_ne {s0 : String} (h : s0 ≠ "") :
    jsStrOrNull s0 = some s0 := by
  unfold jsStrOrNull
  rw [if_neg h]

theorem jsNatOrNull_of_pos {n : Nat} (h : 0 < n) : jsNatOrNull n = some n := by
  unfold jsNatOrNull
  rw [if_neg (by omega)]

/-- After a round start is handled, the invariant holds at `k+1`:
conditions describe the state `st1` right after `createNewRound` produced
round `r`. -/
theorem roundStartedHandler_inv (m : String) (k : Nat) (st1 : SysState)
    (r : EngineRound)
    (hcom : st1.commits = mkMasterCommits m k)
    (hcur1 : st1.engine.currentRound = some r)
    (hcp : r.crashPoint = (computeCrashPointFromSeed r.serverSeed "").crashPoint)
    (hcommit : ∀ i, r.commitIdx = some i →
      r.serverSeed = masterSeedFor m i ∧
      r.serverSeedHash = sha256hex r.serverSeed ∧ 1 ≤ i ∧ i ≤ k)
    (hrows : ∀ row ∈ st1.rounds, ∀ i s,
      row.commitIdx = some i → row.serverSeed = some s →
      s = masterSeedFor m i ∧ 1 ≤ i ∧ i ≤ k ∧
      row.serverSeedHash = some (sha256hex s) ∧
      row.crashPoint = some ((computeCrashPointFromSeed s "").crashPoint))
    (hids : ∀ row ∈ st1.rounds, row.roundId < r.roundId)
    (hrid : r.roundId < st1.nextRoundId) :
    MasterInv m (k + 1) (roundStartedHandler (some m) r st1) := by
  have hany := any_roundId_false st1.rounds r.roundId hids
  rw [roundStartedHandler_eq m r st1 k hcom hany]
  refine ⟨rfl, ?_, ?_, ?_, ?_, ?_, ?_⟩
  · intro p hp
    have hp2 : some (⟨masterSeedFor m (k + 1),
        sha256hex (masterSeedFor m (k + 1)), k + 1⟩ : SeedObj) = some p := hp
    obtain rfl := Option.some.inj hp2
    refine ⟨rfl, rfl, ?_, ?_⟩
    · show 1 ≤ k + 1
      omega
    · show k + 1 ≤ k + 1
      exact Nat.le_refl _
  · intro r2 hr2
    have hr2b : st1.engine.currentRound = some r2 := hr2
    rw [hcur1] at hr2b
    cases hr2b
    refine ⟨hcp, ?_⟩
    intro i hi
    obtain ⟨h1, h2, h3, h4⟩ := hcommit i hi
    exact ⟨h1, h2, h3, by omega⟩
  · intro row hrow i s hci hss
    have hrow2 : row ∈ st1.rounds ++ [persistedStartRow r] := hrow
    rcases List.mem_append.mp hrow2 with hmem | hmem
    · obtain ⟨h1, h2, h3, h4, h5⟩ := hrows row hmem i s hci hss
      exact ⟨h1, h2, by omega, h4, h5⟩
    · rw [List.mem_singleton] at hmem
      subst hmem
      exact absurd hss (by simp [persistedStartRow])
  · intro row hrow
    have hrow2 : row ∈ st1.rounds ++ [persistedStartRow r] := hrow
    show row.roundId < st1.nextRoundId
    rcases List.mem_append.mp hrow2 with hmem | hmem
    · exact (hids row hmem).trans hrid
    · rw [List.mem_singleton] at hmem
      subst hmem
      exact hrid
  · intro r2 hr2
    have hr2b : st1.engine.currentRound = some r2 := hr2
    rw [hcur1] at hr2b
    cases hr2b
    show r.roundId < st1.nextRoundId
    exact hrid
  · intro r2 hr2 row hrow hmatch
    have hr2b : st1.engine.currentRound = some r2 := hr2
    rw [hcur1] at hr2b
    cases hr2b
    have hrow2 : row ∈ st1.rounds ++ [persistedStartRow r] := hrow
    rcases List.mem_append.mp hrow2 with hmem | hmem
    · exact absurd hmatch (Nat.ne_of_lt (hids row hmem))
    · rw [List.mem_singleton] at hmem
      subst hmem
      exact ⟨rfl, rfl⟩

theorem sysStartRound_inv (m : String) (t : Nat) (st : SysState) (k : Nat)
    (inv : MasterInv m k st) :
    MasterInv m (k + 1) (sysStartRound (some m) t st) := by
  obtain ⟨hcom, hpend, hcur, hrows, hids, hcid, hlink⟩ := inv
  unfold sysStartRound
  cases hp : st.engine.pendingSeedObj with
  | some p =>
    rw [createNewRound_pending t st p hp]
    dsimp only
    obtain ⟨hps, hph, hp1, hpk⟩ := hpend p hp
    apply roundStartedHandler_inv
    · exact hcom
    · exact rfl
    · dsimp only
    · dsimp only
      intro i hi
      obtain rfl := Option.some.inj hi
      exact ⟨hps, by rw [hph, hps], hp1, hpk⟩
    · dsimp only
      intro row hrow i s hci hss
      exact hrows row hrow i s hci hss
    · dsimp only
      intro row hrow
      exact hids row hrow
    · dsimp only
      exact Nat.lt_succ_self _
  | none =>
    cases hr : st.randoms with
    | cons r0 rest =>
      rw [createNewRound_ephemeral t st r0 rest hp hr]
      dsimp only
      apply roundStartedHandler_inv
      · exact hcom
      · exact rfl
      · dsimp only
      · dsimp only
        intro i hi
        exact absurd hi (by simp)
      · dsimp only
        intro row hrow i s hci hss
        exact hrows row hrow i s hci hss
      · dsimp only
        intro row hrow
        exact hids row hrow
      · dsimp only
        exact Nat.lt_succ_self _
    | nil =>
      rw [createNewRound_ephemeral_empty t st hp hr]
      dsimp only
      apply roundStartedHandler_inv
      · exact hcom
      · exact rfl
      · dsimp only
      · dsimp only
        intro i hi
        exact absurd hi (by simp)
      · dsimp only
        intro row hrow i s hci hss
        exact hrows row hrow i s hci hss
      · dsimp only
        intro row hrow
        exact hids row hrow
      · dsimp only
        exact Nat.lt_succ_self _

theorem computeCrash_crashPoint (seed cs : String) :
    (computeCrashPointFromSeed seed cs).crashPoint =
      hashToCrashPoint (hmacSha256Hex seed cs) := by
  dsimp only [computeCrashPointFromSeed]

theorem computeCrash_pos (seed cs : String) :
    0 < (computeCrashPointFromSeed seed cs).crashPoint := by
  rw [computeCrash_crashPoint]
  exact Nat.lt_of_lt_of_le (by omega) (hashToCrashPoint_ge _)

theorem sysCrashRound_inv (m : String) (t : Nat) (st : SysState) (k : Nat)
    (inv : MasterInv m k st) : MasterInv m k (sysCrashRound t st) := by
  obtain ⟨hcom, hpend, hcur, hrows, hids, hcid, hlink⟩ := inv
  cases hc : st.engine.currentRound with
  | none =>
    have hstep : sysCrashRound t st = st := by
      unfold sysCrashRound
      rw [hc]
    rw [hstep]
    exact ⟨hcom, hpend, hcur, hrows, hids, hcid, hlink⟩
  | some r =>
    by_cases hcr : r.status = .crashed
    · have hstep : sysCrashRound t st = st := by
        unfold sysCrashRound
        rw [hc]
        dsimp only
        rw [if_pos hcr]
      rw [hstep]
      exact ⟨hcom, hpend, hcur, hrows, hids, hcid, hlink⟩
    · rw [sysCrashRound_eq t st r hc hcr, markRoundCrashed_eq t r hcr]
      obtain ⟨hcp, hcommit⟩ := hcur r hc
      refine ⟨hcom, ?_, ?_, ?_, ?_, ?_, ?_⟩
      · intro p hp
        exact hpend p hp
      · intro r2 hr2
        dsimp only at hr2
        obtain rfl := Option.some.inj hr2
        exact ⟨hcp, hcommit⟩
      · intro row2 hrow2 i s hci hss
        dsimp only at hrow2
        obtain ⟨row, hrow, rfl⟩ := List.mem_map.mp hrow2
        by_cases hm : row.roundId = r.roundId
        · rw [if_pos (by exact hm)] at hci hss ⊢
          dsimp only at hci hss ⊢
          have hseed : r.serverSeed = s := jsStrOrNull_some hss
          have hcommitIdx : r.commitIdx = some i :=
            jsNatOptOrNull_some ((hlink r hc row hrow hm).1 ▸ hci)
          obtain ⟨h1, h2, h3, h4⟩ := hcommit i hcommitIdx
          refine ⟨by rw [← hseed, h1], h3, h4, ?_, ?_⟩
          · rw [(hlink r hc row hrow hm).2, h2, ← hseed]
            exact jsStrOrNull_of_ne (sha256hex_ne_empty _)
          · rw [hcp, ← hseed]
            exact jsNatOrNull_of_pos (computeCrash_pos r.serverSeed "")
        · rw [if_neg (by exact hm)] at hci hss ⊢
          exact hrows row hrow i s hci hss
      · intro row2 hrow2
        dsimp only at hrow2 ⊢
        obtain ⟨row, hrow, rfl⟩ := List.mem_map.mp hrow2
        by_cases hm : row.roundId = r.roundId
        · rw [if_pos (by exact hm)]
          dsimp only
          exact hids row hrow
        · rw [if_neg (by exact hm)]
          exact hids row hrow
      · intro r2 hr2
        dsimp only at hr2 ⊢
        obtain rfl := Option.some.inj hr2
        exact hcid r hc
      · intro r2 hr2 row2 hrow2 hmatch
        dsimp only at hr2 hrow2 hmatch ⊢
        obtain rfl := Option.some.inj hr2
        obtain ⟨row, hrow, rfl⟩ := List.mem_map.mp hrow2
        by_cases hm : row.roundId = r.roundId
        · rw [if_pos (by exact hm)]
          dsimp only
          exact hlink r hc row hrow hm
        · rw [if_neg (by exact hm)] at hmatch
          exact absurd hmatch hm

theorem serverBoot_inv (m : String) (randoms : List String) :
    MasterInv m 1 (serverBoot (some m) (initSysState randoms)) := by
  rw [serverBoot_eq]
  refine ⟨rfl, ?_, ?_, ?_, ?_, ?_, ?_⟩
  · intro p hp
    have hp2 : some (⟨masterSeedFor m 1, sha256hex (masterSeedFor m 1),
        1⟩ : SeedObj) = some p := hp
    obtain rfl := Option.some.inj hp2
    exact ⟨rfl, rfl, Nat.le_refl _, Nat.le_refl _⟩
  · intro r hr
    exact absurd hr (by simp)
  · intro row hrow
    exact absurd hrow (by simp)
  · intro row hrow
    exact absurd hrow (by simp)
  · intro r hr
    exact absurd hr (by simp)
  · intro r hr
    exact absurd hr (by simp)

theorem runRounds_inv (m : String) (times : List (Nat × Nat)) :
    ∀ (st : SysState) (k : Nat), MasterInv m k st →
      ∃ k2, MasterInv m k2 (runRounds (some m) times st) := by
  induction times with
  | nil => intro st k h; exact ⟨k, h⟩
  | cons tp rest ih =>
    intro st k h
    have hstep : runRounds (some m) (tp :: rest) st =
        runRounds (some m) rest
          (sysCrashRound tp.2 (sysStartRound (some m) tp.1 st)) := rfl
    rw [hstep]
    exact ih _ (k + 1)
      (sysCrashRound_inv m tp.2 _ (k + 1) (sysStartRound_inv m tp.1 st k h))

/-- C1 (amended): with `SEED_MASTER` configured, every persisted round
with a non-null `commit_idx i` and a revealed `server_seed s` binds:
SHA-256(s) equals the seed_hash of a `seed_commits` row with idx `i`,
every commit row with idx `i` carries exactly that hash, the round's
stored `server_seed_hash` is that same hash, and the stored `crash_point`
is the crash-point derivation of `s`. (With `SEED_MASTER` absent the hash
bindings fail — see the counterexample.) -/
theorem C1_master_binding (m : String) (randoms : List String)
    (times : List (Nat × Nat)) (row : RoundRow) (i : Nat) (s : String)
    (hrow : row ∈ (serverRun (some m) randoms times).rounds)
    (hci : row.commitIdx = some i)
    (hss : row.serverSeed = some s) :
    (∃ c, c ∈ (serverRun (some m) randoms times).commits ∧ c.idx = i ∧
      c.seedHash = sha256hex s) ∧
    (∀ c, c ∈ (serverRun (some m) randoms times).commits → c.idx = i →
      c.seedHash = sha256hex s) ∧
    row.serverSeedHash = some (sha256hex s) ∧
    row.crashPoint = some ((computeCrashPointFromSeed s "").crashPoint) := by
  obtain ⟨k2, inv⟩ := runRounds_inv m times _ 1 (serverBoot_inv m randoms)
  have hrow2 : row ∈ (runRounds (some m) times
      (serverBoot (some m) (initSysState randoms))).rounds := hrow
  obtain ⟨hs, h1, h2, hhash, hcp⟩ := inv.rounds_ok row hrow2 i s hci hss
  have hcommits : (serverRun (some m) randoms times).commits =
      mkMasterCommits m k2 := inv.commits_eq
  refine ⟨⟨⟨i, sha256hex (masterSeedFor m i)⟩, ?_, rfl, by rw [hs]⟩,
          ?_, hhash, hcp⟩
  · rw [hcommits]
    exact mem_mkMasterCommits.mpr ⟨i, h1, h2, rfl⟩
  · intro c hc hidx
    rw [hcommits] at hc
    obtain ⟨j, hj1, hj2, rfl⟩ := mem_mkMasterCommits.mp hc
    have hj : j = i := hidx
    subst hj
    rw [hs]

/-- C1 counterexample: without `SEED_MASTER`, `deriveSeedForIdx` draws a
fresh random on each call, so the round runs and reveals a different seed
("bb") than the one whose hash was committed ("aa"): the persisted round
has commit_idx 1 and revealed seed "bb", yet SHA-256("bb") matches
neither the idx-1 commit row's seed_hash nor the round's stored
server_seed_hash. -/
theorem C1_counterexample :
    (let st := serverRun none ["aa", "bb", "cc", "dd"] [(0, 2000)]
     let row := st.rounds.headD ⟨0, none, none, none, 0, none, none, false, none⟩
     row ∈ st.rounds ∧ row.commitIdx = some 1 ∧ row.serverSeed = some "bb" ∧
     (∃ c, c ∈ st.commits ∧ c.idx = 1 ∧ sha256hex "bb" ≠ c.seedHash) ∧
     row.serverSeedHash ≠ some (sha256hex "bb")) := by
  decide

/-- Witness for `C1_master_binding`: one full round under
`SEED_MASTER = "m"`, instantiated at the persisted round row. -/
theorem C1_master_binding_witness :
    c1row ∈ (serverRun (some "m") [] [(0, 2000)]).rounds ∧
    c1row.commitIdx = some 1 ∧
    c1row.serverSeed = some (masterSeedFor "m" 1) ∧
    ((∃ c, c ∈ (serverRun (some "m") [] [(0, 2000)]).commits ∧ c.idx = 1 ∧
        c.seedHash = sha256hex (masterSeedFor "m" 1)) ∧
     (∀ c, c ∈ (serverRun (some "m") [] [(0, 2000)]).commits → c.idx = 1 →
        c.seedHash = sha256hex (masterSeedFor "m" 1)) ∧
     c1row.serverSeedHash = some (sha256hex (masterSeedFor "m" 1)) ∧
     c1row.crashPoint =
       some ((computeCrashPointFromSeed (masterSeedFor "m" 1) "").crashPoint)) :=
  ⟨by decide, by decide, by decide,
   C1_master_binding "m" [] [(0, 2000)] c1row 1 (masterSeedFor "m" 1)
     (by decide) (by decide) (by decide)⟩
